import Mathlib

set_option autoImplicit false

/-!
Shallow embedding of the Step-Recording & Playback Engine of the algorithm
visualizer repository (SortingVisualizer, SearchVisualizer,
PathfindingVisualizer, and the host Application performance history).

Machine integers of the C++ source are modelled as `Int` where the source
uses `int` values that can be negative (step indices, `-1` sentinels) and as
`Nat` where the source uses `size_t` or values that are only ever
incremented from zero (cursors, counters).  Wall-clock instants
(`std::chrono` time points) are modelled as `Nat` timestamps supplied to
each operation.  Rendering, audio synthesis, and random array generation
are out of scope, exactly as in the code they are side effects that read,
but never write, the state modelled here.
-/

namespace AlgoViz

/-! ## Sorting family: step record and generation (SortingVisualizer.cpp) -/

/-- `SortingVisualizer::SortingStep` (SortingVisualizer.h): a full-array
snapshot plus highlight metadata and classification.  `swapped` is the
mutation flag; a step with `swapped = false` and two nonnegative compare
indices is a comparison step. -/
structure SortingStep where
  array : List Int
  compareIndex1 : Int := -1
  compareIndex2 : Int := -1
  pivotIndex : Int := -1
  swapped : Bool := false
  description : String := ""
deriving DecidableEq, Repr

instance : Inhabited SortingStep := ⟨{ array := [] }⟩

/-- Generation-time state threaded through a sorting algorithm run: the
working copy `arr` of the input (the C++ local `auto arr = m_array`), the
step log being appended to (`m_sortingSteps`), and the generation-time
counters `m_comparisons` / `m_swaps`. -/
structure SortGen where
  arr : List Int
  steps : List SortingStep
  comparisons : Nat
  swaps : Nat
deriving DecidableEq, Repr

/-- `std::swap(arr[i], arr[j])` on a `List Int`. -/
def listSwap (l : List Int) (i j : Nat) : List Int :=
  (l.set i (l.getD j 0)).set j (l.getD i 0)

/-- `SortingVisualizer::RecordStep`: append one immutable step record. -/
def recordStep (steps : List SortingStep) (array : List Int)
    (comp1 comp2 pivot : Int) (swapped : Bool) (desc : String) :
    List SortingStep :=
  steps ++ [{ array := array, compareIndex1 := comp1, compareIndex2 := comp2,
              pivotIndex := pivot, swapped := swapped, description := desc }]

/-- Inner-loop body of `SortingVisualizer::BubbleSort` for a fixed `j`:
record the comparison step (pre-branch snapshot), bump `m_comparisons`,
and on `arr[j] > arr[j+1]` swap, bump `m_swaps`, and record the
post-mutation snapshot. -/
def bubbleStep (g : SortGen) (j : Nat) : SortGen :=
  let g1 : SortGen :=
    { g with
      steps := (recordStep g.steps g.arr j (j + 1) (-1) false
        (s!"Comparing elements at positions {j} and {j + 1}")),
      comparisons := g.comparisons + 1 }
  if g1.arr.getD j 0 > g1.arr.getD (j + 1) 0 then
    let arr2 := listSwap g1.arr j (j + 1)
    { g1 with
      arr := arr2,
      swaps := g1.swaps + 1,
      steps := (recordStep g1.steps arr2 j (j + 1) (-1) true
        (s!"Swapping elements at positions {j} and {j + 1}")) }
  else g1

/-- `SortingVisualizer::BubbleSort`: the two nested `for` loops
(`i < n-1`, `j < n-i-1`) followed by the final terminal record.  The
counters start from 0 because `StartSorting` zeroes them immediately
before dispatching to the algorithm. -/
def bubbleSort (arr : List Int) : SortGen :=
  let n := arr.length
  let g0 : SortGen := ⟨arr, [], 0, 0⟩
  let g := (List.range (n - 1)).foldl
    (fun g i => (List.range (n - 1 - i)).foldl bubbleStep g) g0
  { g with steps := (recordStep g.steps g.arr (-1) (-1) (-1) false
      "Bubble sort completed!") }

/-! ## Sorting family: playback state machine (SortingVisualizer.cpp) -/

/-- `SortingVisualizer::AnimationState` (shared shape with
`PathfindingVisualizer::AnimationState`). -/
inductive AnimState where
  | Stopped
  | Running
  | Paused
  | Completed
deriving DecidableEq, Repr

/-- One record as assembled by
`Application::RecordAlgorithmPerformance` from a performance-callback
invocation `(name, duration, comparisons, swaps)`, as far as the claims
reach; `timestamp` is the wall clock taken at recording time (the same
instant the callback fired, since the call is synchronous).  The
`memoryUsage` estimate (a display-only figure derived from the current
visualizer) is omitted. -/
structure PerfRec where
  name : String
  executionTime : Nat
  comparisons : Nat
  swaps : Nat
  timestamp : Nat
deriving DecidableEq, Repr

/-- The playback-relevant state of one `SortingVisualizer`.  `algName`
is `GetAlgorithmName(m_currentAlgorithm)` for the selected algorithm
(whose executor is the `gen` parameter of the operations below).
`emitted` is the ordered log of performance-callback invocations
(`m_performanceCallback(name, duration, m_comparisons, m_swaps)`), each
entry carrying what the host records from it.  Display-only timing fields
(`m_currentAnimationTime`, `m_isTimingActive`) and the unused
`m_totalComparisons`/`m_totalSwaps` members are omitted: no modelled
operation reads them. -/
structure SortVis where
  array : List Int
  originalArray : List Int
  algName : String
  sortingSteps : List SortingStep
  currentStepIndex : Nat
  state : AnimState
  comparisons : Nat
  swaps : Nat
  stepDelay : Nat
  lastUpdate : Nat
  sortStartTime : Nat
  emitted : List PerfRec
deriving DecidableEq, Repr

/-- `SortingVisualizer::ExecuteCurrentStep`: apply the snapshot stored at
the cursor as the visible array (and play audio, out of scope). -/
def executeCurrentStep (s : SortVis) : SortVis :=
  if s.sortingSteps ≠ [] ∧ s.currentStepIndex < s.sortingSteps.length then
    { s with array := (s.sortingSteps.getD s.currentStepIndex default).array }
  else s

/-- `SortingVisualizer::StepForward` at wall-clock instant `now`: execute
the step at the cursor, advance the cursor, and on exhausting the log
transition to `Completed` and invoke the performance callback with the
generation-time counters. -/
def sortStepForward (now : Nat) (s : SortVis) : SortVis :=
  if s.sortingSteps ≠ [] ∧ s.currentStepIndex < s.sortingSteps.length then
    let s1 := executeCurrentStep s
    let s2 := { s1 with currentStepIndex := s1.currentStepIndex + 1 }
    if s2.sortingSteps.length ≤ s2.currentStepIndex then
      { s2 with
        state := AnimState.Completed,
        emitted := (s2.emitted ++
          [{ name := s2.algName, executionTime := now - s2.sortStartTime,
             comparisons := s2.comparisons, swaps := s2.swaps,
             timestamp := now }]) }
    else s2
  else s

/-- `SortingVisualizer::StepBackward`: decrement the cursor (only when
positive) and re-apply the snapshot at the new cursor; leave `Completed`
for `Paused`. -/
def sortStepBackward (s : SortVis) : SortVis :=
  if 0 < s.currentStepIndex then
    let s1 := executeCurrentStep { s with currentStepIndex := s.currentStepIndex - 1 }
    if s1.state = AnimState.Completed then { s1 with state := AnimState.Paused }
    else s1
  else s

/-- `SortingVisualizer::StartSorting` at instant `now`, parameterized by
the generator `gen` selected by the `switch (m_currentAlgorithm)` (each
case is one algorithm member function; `bubbleSort` above is the
`BubbleSort` case).  From `Stopped` it regenerates the log and counters
eagerly and re-arms the cursor at 0; from any other state it only resumes.
In both cases the state becomes `Running`. -/
def startSorting (gen : List Int → SortGen) (now : Nat) (s : SortVis) : SortVis :=
  let s1 :=
    if s.state = AnimState.Stopped then
      let g := gen s.array
      { s with
        sortStartTime := now,
        sortingSteps := g.steps,
        comparisons := g.comparisons,
        swaps := g.swaps,
        currentStepIndex := 0 }
    else s
  { s1 with state := AnimState.Running, lastUpdate := now }

/-- `SortingVisualizer::PauseSorting`. -/
def pauseSorting (s : SortVis) : SortVis :=
  if s.state = AnimState.Running then { s with state := AnimState.Paused } else s

/-- `SortingVisualizer::ResetArray`: back to `Stopped`, restore the
pre-run input, clear the log and the counters. -/
def resetArray (s : SortVis) : SortVis :=
  { s with
    state := AnimState.Stopped,
    array := s.originalArray,
    currentStepIndex := 0,
    sortingSteps := [],
    comparisons := 0,
    swaps := 0 }

/-- `SortingVisualizer::Update` (one per-frame tick) at instant `now`:
while `Running`, advance by one step when the elapsed wall-clock time
since the last advancement has reached `m_stepDelay`. -/
def sortUpdate (now : Nat) (s : SortVis) : SortVis :=
  if s.state = AnimState.Running ∧ s.stepDelay ≤ now - s.lastUpdate then
    { sortStepForward now s with lastUpdate := now }
  else s

/-- Effect of `SortingVisualizer::SetAnimationSpeed` on the playback
machine: the clamped float speed only determines the new per-step delay
`m_stepDelay = 100ms / speed`; the delay itself is what the tick rule
reads, so it is the modelled quantity. -/
def setStepDelay (d : Nat) (s : SortVis) : SortVis :=
  { s with stepDelay := d }

/-- The operations the host UI can invoke on a `SortingVisualizer`,
paired at application time with the wall-clock instant of the call. -/
inductive SortOp where
  | start
  | pause
  | reset
  | stepFwd
  | stepBwd
  | tick
  | setDelay (d : Nat)
deriving DecidableEq, Repr

/-- Apply one timed operation. -/
def applySortOp (gen : List Int → SortGen) (s : SortVis) : SortOp × Nat → SortVis
  | (SortOp.start, t) => startSorting gen t s
  | (SortOp.pause, _) => pauseSorting s
  | (SortOp.reset, _) => resetArray s
  | (SortOp.stepFwd, t) => sortStepForward t s
  | (SortOp.stepBwd, _) => sortStepBackward s
  | (SortOp.tick, t) => sortUpdate t s
  | (SortOp.setDelay d, _) => setStepDelay d s

/-- Run a whole timed operation trace. -/
def runSortTrace (gen : List Int → SortGen) (s : SortVis)
    (ops : List (SortOp × Nat)) : SortVis :=
  ops.foldl (applySortOp gen) s

/-- A fresh `SortingVisualizer` holding input `arr` with algorithm name
`name` selected (state as established by the constructor and array
generation: stopped, empty log, zero counters, default 100 ms step
delay). -/
def initSortVis (arr : List Int) (name : String) : SortVis :=
  { array := arr, originalArray := arr, algName := name, sortingSteps := [],
    currentStepIndex := 0, state := AnimState.Stopped, comparisons := 0,
    swaps := 0, stepDelay := 100, lastUpdate := 0, sortStartTime := 0,
    emitted := [] }

/-! ## Search family: step record and generation (SearchVisualizer.cpp) -/

/-- `SearchStep` (SearchVisualizer.h) with the field defaults of the
source; the unused `searchRange` vector is omitted (no code reads it). -/
structure SearchStep where
  description : String := ""
  currentIndex : Int := -1
  lowIndex : Int := -1
  highIndex : Int := -1
  foundIndex : Int := -1
  isComparison : Bool := false
  isFound : Bool := false
deriving DecidableEq, Repr

instance : Inhabited SearchStep := ⟨{}⟩

/-- Generation-time state of one search run: the step log `m_steps`, the
generation-time counter `m_totalComparisons`, and the ordered log of
performance-callback invocations, each carrying the algorithm name and
the comparisons value `CompleteSearch` reported. -/
structure SearchGen where
  steps : List SearchStep
  totalComparisons : Nat
  emitted : List (String × Nat)
deriving DecidableEq, Repr

/-- `SearchVisualizer::RecordStep`. -/
def recordSearchStep (g : SearchGen) (desc : String)
    (currentIndex low high : Int) (isComparison : Bool) : SearchGen :=
  { g with steps := g.steps ++
      [{ description := desc, currentIndex := currentIndex, lowIndex := low,
         highIndex := high, isComparison := isComparison }] }

/-- Push the fresh success step the found paths build by hand
(`description`, `foundIndex`, `isFound` set; everything else default). -/
def pushFoundStep (g : SearchGen) (desc : String) (idx : Int) : SearchGen :=
  { g with steps := g.steps ++
      [{ description := desc, foundIndex := idx, isFound := true }] }

/-- `SearchVisualizer::CompleteSearch`: fire the performance callback with
`GetAlgorithmName(m_currentAlgorithm)` and `m_totalComparisons` (the swaps
argument is the constant 0 in the source).  The reported duration is a
wall-clock quantity not constrained by any claim, so the record keeps only
the pair the claims are about. -/
def completeSearch (name : String) (g : SearchGen) : SearchGen :=
  { g with emitted := g.emitted ++ [(name, g.totalComparisons)] }

/-- Loop of `SearchVisualizer::LinearSearch` over the indexed elements:
push a comparison step and bump `m_totalComparisons` for every probe; on a
hit, push the found step (a modified copy of the probe step, so it keeps
`isComparison = true`) and complete; when the list is exhausted push the
not-found step and complete. -/
def linearLoop (target : Int) : List (Nat × Int) → SearchGen → SearchGen
  | [], g =>
      completeSearch "Linear Search"
        { g with steps := g.steps ++ [{ description := "Target not found in array" }] }
  | (i, v) :: rest, g =>
      let checkStep : SearchStep :=
        { description := s!"Checking element at index {i}: {v}",
          currentIndex := i, isComparison := true }
      let g1 : SearchGen :=
        { g with steps := g.steps ++ [checkStep],
                 totalComparisons := g.totalComparisons + 1 }
      if v = target then
        completeSearch "Linear Search"
          { g1 with steps := g1.steps ++
              [{ checkStep with
                 description := s!"Found target {target} at index {i}",
                 foundIndex := i, isFound := true }] }
      else linearLoop target rest g1

/-- `SearchVisualizer::LinearSearch`. -/
def linearSearch (arr : List Int) (target : Int) (g : SearchGen) : SearchGen :=
  linearLoop target arr.enum g

/-- The `while (low <= high)` loop of `SearchVisualizer::BinarySearch`. -/
def binaryLoop (arr : List Int) (target low high : Int) (g : SearchGen) :
    SearchGen :=
  if low ≤ high then
    let mid := low + (high - low) / 2
    let midv := arr.getD mid.toNat 0
    let g1 := recordSearchStep g
      (s!"Checking middle element at index {mid} (value: {midv})") mid low high true
    if midv = target then
      completeSearch "Binary Search"
        (pushFoundStep
          (recordSearchStep g1 (s!"Found target {target} at index {mid}!")
            mid low high false)
          "Search completed successfully!" mid)
    else if midv < target then
      binaryLoop arr target (mid + 1) high
        (recordSearchStep g1 (s!"Target is greater than {midv}, searching right half")
          mid low high false)
    else
      binaryLoop arr target low (mid - 1)
        (recordSearchStep g1 (s!"Target is less than {midv}, searching left half")
          mid low high false)
  else completeSearch "Binary Search" g
termination_by (high + 1 - low).toNat
decreasing_by
  all_goals omega

/-- `SearchVisualizer::BinarySearch`: arm `low = 0`,
`high = size - 1`, record the opening step, and run the loop. -/
def binarySearch (arr : List Int) (target : Int) (g : SearchGen) : SearchGen :=
  binaryLoop arr target 0 ((arr.length : Int) - 1)
    (recordSearchStep g "Starting Binary Search" (-1) 0 ((arr.length : Int) - 1) false)

/-- The loop of `SearchVisualizer::InterpolationSearch`.  The raw
interpolated position is double-precision arithmetic in the source
(`low + (target - arr[low]) / (arr[high] - arr[low]) * (high - low)`
truncated to `int`); it is abstracted as the parameter `ipos low high`,
and the source's clamp `std::max(low, std::min(pos, high))` is applied to
it, which is all the rest of the control flow depends on. -/
def interpLoop (ipos : Int → Int → Int) (arr : List Int) (target low high : Int)
    (g : SearchGen) : SearchGen :=
  if low ≤ high ∧ arr.getD low.toNat 0 ≤ target ∧ target ≤ arr.getD high.toNat 0 then
    if low = high then
      let g1 := recordSearchStep g (s!"Single element remaining at index {low}")
        low low high true
      if arr.getD low.toNat 0 = target then
        completeSearch "Interpolation Search"
          (pushFoundStep g1 "Found target!" low)
      else g1
    else
      let pos := max low (min (ipos low high) high)
      let posv := arr.getD pos.toNat 0
      let g1 := recordSearchStep g
        (s!"Interpolating position: {pos} (value: {posv})") pos low high true
      if posv = target then
        completeSearch "Interpolation Search"
          (pushFoundStep
            (recordSearchStep g1 (s!"Found target {target} at index {pos}!")
              pos low high false)
            "Search completed successfully!" pos)
      else if posv < target then
        interpLoop ipos arr target (pos + 1) high
          (recordSearchStep g1 (s!"Target is greater than {posv}, searching right")
            pos low high false)
      else
        interpLoop ipos arr target low (pos - 1)
          (recordSearchStep g1 (s!"Target is less than {posv}, searching left")
            pos low high false)
  else completeSearch "Interpolation Search" g
termination_by (high + 1 - low).toNat
decreasing_by
  all_goals omega

/-- `SearchVisualizer::InterpolationSearch`. -/
def interpolationSearch (ipos : Int → Int → Int) (arr : List Int) (target : Int)
    (g : SearchGen) : SearchGen :=
  interpLoop ipos arr target 0 ((arr.length : Int) - 1)
    (recordSearchStep g "Starting Interpolation Search" (-1) 0
      ((arr.length : Int) - 1) false)

/-- The bound-doubling loop of `SearchVisualizer::ExponentialSearch`
(`while (bound < n && arr[bound] < target) bound *= 2`), modelled with a
fuel bound on the iteration count (the caller passes `n + 1`, more than
the loop can ever execute, since the bound at least doubles from 1). -/
def expBoundLoop (arr : List Int) (target : Int) :
    Nat → Nat → SearchGen → Nat × SearchGen
  | 0, bound, g => (bound, g)
  | fuel + 1, bound, g =>
      if bound < arr.length ∧ arr.getD bound 0 < target then
        let bv := arr.getD bound 0
        expBoundLoop arr target fuel (bound * 2)
          (recordSearchStep g (s!"Checking bound at index {bound} (value: {bv})")
            bound (-1) (-1) true)
      else (bound, g)

/-- The binary-search phase of `SearchVisualizer::ExponentialSearch`. -/
def expBinLoop (arr : List Int) (target low high : Int) (g : SearchGen) :
    SearchGen :=
  if low ≤ high then
    let mid := low + (high - low) / 2
    let midv := arr.getD mid.toNat 0
    let g1 := recordSearchStep g
      (s!"Binary search: checking index {mid} (value: {midv})") mid low high true
    if midv = target then
      completeSearch "Exponential Search"
        (pushFoundStep
          (recordSearchStep g1 (s!"Found target {target} at index {mid}!")
            mid low high false)
          "Search completed successfully!" mid)
    else if midv < target then expBinLoop arr target (mid + 1) high g1
    else expBinLoop arr target low (mid - 1) g1
  else completeSearch "Exponential Search" g
termination_by (high + 1 - low).toNat
decreasing_by
  all_goals omega

/-- `SearchVisualizer::ExponentialSearch`. -/
def exponentialSearch (arr : List Int) (target : Int) (g : SearchGen) :
    SearchGen :=
  let g := recordSearchStep g "Starting Exponential Search" (-1) (-1) (-1) false
  if arr.getD 0 0 = target then
    completeSearch "Exponential Search"
      (pushFoundStep
        (recordSearchStep g "Found target at index 0!" 0 (-1) (-1) false)
        "Search completed successfully!" 0)
  else
    let p := expBoundLoop arr target (arr.length + 1) 1 g
    let low : Int := (p.1 : Int) / 2
    let high : Int := min (p.1 : Int) ((arr.length : Int) - 1)
    expBinLoop arr target low high
      (recordSearchStep p.2
        (s!"Found range [{low}..{high}], starting binary search") (-1) low high false)

/-- The block-local linear scan of `SearchVisualizer::JumpSearch`
(`while (arr[prev] < target)` with the in-loop exit at the block end),
including the found / not-found epilogue that follows the loop.  Fuel
bounds the iteration count; the caller passes `n + 1`. -/
def jumpLinearLoop (arr : List Int) (target : Int) (blockEnd : Nat) :
    Nat → Nat → SearchGen → SearchGen
  | 0, _, g => g
  | fuel + 1, prev, g =>
      if arr.getD prev 0 < target then
        let pv := arr.getD prev 0
        let g1 := recordSearchStep g
          (s!"Linear search: checking index {prev} (value: {pv})") prev (-1) (-1) true
        if prev + 1 = blockEnd then
          completeSearch "Jump Search"
            (recordSearchStep g1 "Target not found in array" (-1) (-1) (-1) false)
        else jumpLinearLoop arr target blockEnd fuel (prev + 1) g1
      else
        if arr.getD prev 0 = target then
          completeSearch "Jump Search"
            (pushFoundStep
              (recordSearchStep g (s!"Found target {target} at index {prev}!")
                prev (-1) (-1) false)
              "Search completed successfully!" prev)
        else
          completeSearch "Jump Search"
            (recordSearchStep g "Target not found in array" (-1) (-1) (-1) false)

/-- The block-probing loop of `SearchVisualizer::JumpSearch`
(`while (arr[min(step, n) - 1] < target)`), followed by the hand-off to
the linear scan.  Fuel bounds the iteration count. -/
def jumpBlockLoop (arr : List Int) (target : Int) (step0 : Nat) :
    Nat → Nat → Nat → SearchGen → SearchGen
  | 0, _, _, g => g
  | fuel + 1, step, prev, g =>
      let n := arr.length
      let probe := min step n - 1
      if arr.getD probe 0 < target then
        let pv := arr.getD probe 0
        let g1 := recordSearchStep g
          (s!"Jumping to index {probe} (value: {pv})") probe (-1) (-1) true
        if n ≤ step then
          completeSearch "Jump Search"
            (recordSearchStep g1 "Target not found in array" (-1) (-1) (-1) false)
        else jumpBlockLoop arr target step0 fuel (step + step0) step g1
      else
        jumpLinearLoop arr target (min step n) (n + 1) prev
          (recordSearchStep g
            (s!"Found potential block [{prev}..{min step n - 1}], linear searching")
            (-1) prev (min step n - 1) false)

/-- `SearchVisualizer::JumpSearch`.  The step size is
`(int)std::sqrt(size)`, which for the array sizes the application reaches
equals the integer square root `Nat.sqrt`. -/
def jumpSearch (arr : List Int) (target : Int) (g : SearchGen) : SearchGen :=
  let step0 := Nat.sqrt arr.length
  jumpBlockLoop arr target step0 (arr.length + 1) step0 0
    (recordSearchStep g (s!"Starting Jump Search with step size {step0}")
      (-1) (-1) (-1) false)

/-! ## Search family: playback state machine (SearchVisualizer.cpp) -/

/-- `SearchAlgorithm` (SearchVisualizer.h). -/
inductive SearchAlgo where
  | LinearSearch
  | BinarySearch
  | InterpolationSearch
  | ExponentialSearch
  | JumpSearch
deriving DecidableEq, Repr

/-- The playback-relevant state of the `SearchVisualizer`.
`comparisons` is `m_comparisons`, the counter the statistics panel shows,
incremented during playback; `totalComparisons` is `m_totalComparisons`,
the generation-time counter the performance callback reports.  Wall-clock
display fields (`m_searchTime`, `m_maxComparisons`, timing points) are
omitted: no modelled control flow reads them. -/
structure SearchVis where
  array : List Int
  targetValue : Int
  algorithm : SearchAlgo
  steps : List SearchStep
  currentStep : Nat
  isRunning : Bool
  isComplete : Bool
  targetFound : Bool
  foundIndex : Int
  comparisons : Nat
  totalComparisons : Nat
  emitted : List (String × Nat)
deriving DecidableEq, Repr

/-- `SearchVisualizer::ResetSearch`: clear the log, the cursor, the flags
and the display counter `m_comparisons` (note: `m_totalComparisons` is
not touched here). -/
def resetSearch (s : SearchVis) : SearchVis :=
  { s with steps := [], currentStep := 0, isRunning := false,
           isComplete := false, targetFound := false, foundIndex := -1,
           comparisons := 0 }

/-- `SearchVisualizer::StartSearch`: reset, dispatch on
`m_currentAlgorithm` to generate the full step log eagerly, then enter
playback (`m_isRunning = true`) whenever the log is non-empty.  The
`m_maxComparisons` display estimate computed in the same switch is
float-derived and display-only, hence omitted. -/
def startSearch (ipos : Int → Int → Int) (s : SearchVis) : SearchVis :=
  let s1 := resetSearch s
  let g0 : SearchGen := ⟨s1.steps, s1.totalComparisons, s1.emitted⟩
  let g :=
    match s1.algorithm with
    | SearchAlgo.LinearSearch => linearSearch s1.array s1.targetValue g0
    | SearchAlgo.BinarySearch => binarySearch s1.array s1.targetValue g0
    | SearchAlgo.InterpolationSearch =>
        interpolationSearch ipos s1.array s1.targetValue g0
    | SearchAlgo.ExponentialSearch => exponentialSearch s1.array s1.targetValue g0
    | SearchAlgo.JumpSearch => jumpSearch s1.array s1.targetValue g0
  let s2 := { s1 with steps := g.steps, totalComparisons := g.totalComparisons,
                      emitted := g.emitted }
  if s2.steps = [] then s2 else { s2 with isRunning := true }

/-- The Start Search button handler (RenderControls): guarded by
`m_targetValue != -1`, it zeroes `m_totalComparisons`, resets, and calls
`StartSearch`.  This is the only call site of `StartSearch` in the
repository, so every search run begins here. -/
def startSearchButton (ipos : Int → Int → Int) (s : SearchVis) : SearchVis :=
  if s.targetValue ≠ -1 then
    startSearch ipos (resetSearch { s with totalComparisons := 0 })
  else s

/-- `SearchVisualizer::StepSearch`: execute the step at the cursor —
bump the playback counter `m_comparisons` on a comparison step, latch the
found state on a found step — advance the cursor, and complete when the
log is exhausted. -/
def stepSearch (s : SearchVis) : SearchVis :=
  if s.currentStep < s.steps.length then
    let step := s.steps.getD s.currentStep default
    let s1 := if step.isComparison then { s with comparisons := s.comparisons + 1 } else s
    let s2 :=
      if step.isFound then
        { s1 with targetFound := true, foundIndex := step.foundIndex,
                  isComplete := true, isRunning := false }
      else s1
    let s3 := { s2 with currentStep := s2.currentStep + 1 }
    if s3.steps.length ≤ s3.currentStep then
      { s3 with isComplete := true, isRunning := false }
    else s3
  else s

/-- `SearchVisualizer::Update` (one per-frame tick): advance one step when
running, not complete, and enough wall-clock time has elapsed
(`elapsed >= 1000 / m_animationSpeed`; the float comparison outcome is the
Boolean parameter). -/
def searchTick (elapsedEnough : Bool) (s : SearchVis) : SearchVis :=
  if s.isRunning ∧ ¬s.isComplete ∧ elapsedEnough then stepSearch s else s

/-- A fresh `SearchVisualizer` over array `arr`, target `t`, algorithm
`a` (constructor state: empty log, counters zero, stopped). -/
def initSearchVis (arr : List Int) (t : Int) (a : SearchAlgo) : SearchVis :=
  { array := arr, targetValue := t, algorithm := a, steps := [],
    currentStep := 0, isRunning := false, isComplete := false,
    targetFound := false, foundIndex := -1, comparisons := 0,
    totalComparisons := 0, emitted := [] }

/-! ## Host performance history (Application.cpp) -/

/-- `Application::RecordAlgorithmPerformance` (reached through
`ReportAlgorithmPerformance`, the function every visualizer callback is
wired to): append the new record, then drop the front element whenever
the history has grown beyond 50 entries. -/
def recordAlgorithmPerformance (hist : List PerfRec) (r : PerfRec) :
    List PerfRec :=
  if 50 < (hist ++ [r]).length then (hist ++ [r]).tail else hist ++ [r]

/-! ## Pathfinding family: start guard (TreeVisualizer.cpp,
`PathfindingVisualizer`) -/

/-- `GridCell::Type`. -/
inductive CellType where
  | Empty
  | Wall
  | Start
  | End
  | Path
  | Visited
  | Frontier
deriving DecidableEq, Repr

/-- The state of the `PathfindingVisualizer` as far as `StartPathfinding`
touches it.  Cells are identified by grid coordinates; the per-cell float
cost fields (`gCost`/`hCost`/`fCost`) and parent pointers live inside the
algorithm executors, which claim C8 quantifies over, so they are part of
the abstracted executor rather than of this structure. -/
structure PFVis where
  startCell : Option (Nat × Nat)
  endCell : Option (Nat × Nat)
  pfState : AnimState
  grid : List (List CellType)
  openSet : List (Nat × Nat)
  closedSet : List (Nat × Nat)
  animationSteps : List ((Nat × Nat) × CellType)
  finalPath : List (Nat × Nat)
  currentStepIndex : Nat
  cellsExplored : Nat
  pathLength : Nat
  lastUpdate : Nat
deriving DecidableEq, Repr

/-- The cell-type rewrite of `PathfindingVisualizer::ResetGridForSearch`:
search artifacts (`Visited`/`Frontier`/`Path`) revert to `Empty`; walls
and the start/end markers persist. -/
def clearSearchCell : CellType → CellType
  | CellType.Visited => CellType.Empty
  | CellType.Frontier => CellType.Empty
  | CellType.Path => CellType.Empty
  | t => t

/-- `PathfindingVisualizer::ResetGridForSearch`. -/
def resetGridForSearch (s : PFVis) : PFVis :=
  { s with
    openSet := [],
    closedSet := [],
    animationSteps := [],
    finalPath := [],
    cellsExplored := 0,
    pathLength := 0,
    grid := s.grid.map (List.map clearSearchCell) }

/-- `PathfindingVisualizer::StartPathfinding` at instant `now`,
parameterized by the executor `exec` chosen by the
`switch (m_currentAlgorithm)` (`ExecuteAStar` / `ExecuteDijkstra` /
`ExecuteBFS` / `ExecuteDFS`).  With no start or no end cell it returns
immediately — before `ResetGridForSearch`, before entering `Running`, and
before any executor runs; the function is `void` in the source, so this
early return is all the host ever observes of the rejection. -/
def startPathfinding (exec : PFVis → PFVis) (now : Nat) (s : PFVis) : PFVis :=
  if s.startCell = none ∨ s.endCell = none then s
  else
    let s1 := { resetGridForSearch s with
                pfState := AnimState.Running, lastUpdate := now }
    { exec s1 with currentStepIndex := 0 }

/-! ## Concrete fixtures used by closed theorems -/

/-- An interpolation-position oracle usable wherever a concrete value of
the abstracted float computation is needed. -/
def iposZero : Int → Int → Int := fun _ _ => 0

/-- A concrete pathfinding executor that visibly changes the state, used
to show that a rejected `StartPathfinding` never reaches the executor. -/
def markingExec : PFVis → PFVis :=
  fun s => { s with pfState := AnimState.Completed, cellsExplored := 99 }

/-- A concrete pathfinding state whose start cell is unset. -/
def pfNoStart : PFVis :=
  { startCell := none, endCell := some (1, 1), pfState := AnimState.Stopped,
    grid := [[CellType.Empty, CellType.Wall], [CellType.End, CellType.Empty]],
    openSet := [], closedSet := [], animationSteps := [], finalPath := [],
    currentStepIndex := 0, cellsExplored := 0, pathLength := 0, lastUpdate := 0 }

/-- A fresh sorting visualizer over `[3, 1, 2]` with Bubble Sort selected. -/
def bubbleVis : SortVis := initSortVis [3, 1, 2] "Bubble Sort"

/-- `bubbleVis` after `StartSorting` at instant 0: log generated, cursor
armed at 0, running. -/
def bubbleStarted : SortVis := startSorting bubbleSort 0 bubbleVis

/-- `bubbleStarted` after one manual `StepForward`: cursor 1, the
comparison step `[3, 1, 2]` displayed. -/
def bubbleAt1 : SortVis := sortStepForward 1 bubbleStarted

/-- `bubbleAt1` after the pair `StepForward(); StepBackward()`. -/
def bubblePair : SortVis := sortStepBackward (sortStepForward 2 bubbleAt1)

/-- One run of Bubble Sort on `[3, 1, 2]` driven to `Completed` by manual
forward steps, then `StepBackward` once and `StepForward` once — a
single `Start`, two entries into `Completed`. -/
def doubleFireTrace : List (SortOp × Nat) :=
  [(SortOp.start, 0), (SortOp.stepFwd, 1), (SortOp.stepFwd, 2), (SortOp.stepFwd, 3),
   (SortOp.stepFwd, 4), (SortOp.stepFwd, 5), (SortOp.stepFwd, 6),
   (SortOp.stepBwd, 7), (SortOp.stepFwd, 8)]

/-- Final state of the double-fire trace. -/
def doubleFireFinal : SortVis := runSortTrace bubbleSort bubbleVis doubleFireTrace

/-- Two complete tick-driven runs of Bubble Sort on `[3, 1, 2]`:
start at 0, six 100 ms ticks, reset, restart at 800, six more ticks. -/
def twoRunTrace : List (SortOp × Nat) :=
  [(SortOp.start, 0), (SortOp.tick, 100), (SortOp.tick, 200), (SortOp.tick, 300),
   (SortOp.tick, 400), (SortOp.tick, 500), (SortOp.tick, 600),
   (SortOp.reset, 700), (SortOp.start, 800), (SortOp.tick, 900),
   (SortOp.tick, 1000), (SortOp.tick, 1100), (SortOp.tick, 1200),
   (SortOp.tick, 1300), (SortOp.tick, 1400)]

/-- Final state of the two-run trace. -/
def twoRunFinal : SortVis := runSortTrace bubbleSort bubbleVis twoRunTrace

/-- The host history produced by feeding the two-run trace's callback
invocations through `Application::RecordAlgorithmPerformance`. -/
def twoRunHistory : List PerfRec :=
  twoRunFinal.emitted.foldl recordAlgorithmPerformance []

/-- A Binary Search run (the Start Search button) for 7 over
`[1, 3, 5, 7, 9]`. -/
def binaryRun : SearchVis :=
  startSearchButton iposZero (initSearchVis [1, 3, 5, 7, 9] 7 SearchAlgo.BinarySearch)

/-- `binaryRun` played to the end (six sufficient-elapsed ticks). -/
def binaryPlayed : SearchVis :=
  (List.range 6).foldl (fun s _ => searchTick true s) binaryRun

/-- A Linear Search run (the Start Search button) over the empty array. -/
def emptyLinearRun : SearchVis :=
  startSearchButton iposZero (initSearchVis [] 7 SearchAlgo.LinearSearch)

/-- A Linear Search run for 5 over the one-element array `[5]`. -/
def singleLinearRun : SearchVis :=
  startSearchButton iposZero (initSearchVis [5] 5 SearchAlgo.LinearSearch)

/-- The cursor-range invariant of the sorting playback machine:
`cursor ∈ [0, log.length]` (`cursor : Nat`, so only the upper bound is
informative). -/
def cursorInRange (s : SortVis) : Prop :=
  s.currentStepIndex ≤ s.sortingSteps.length

instance (s : SortVis) : Decidable (cursorInRange s) := by
  unfold cursorInRange; infer_instance

/-! ## Theorems -/

/-- **C3.** Running the Bubble Sort executor on `[3, 1, 2]` produces, in
order: a comparison step for the index pair (0,1), a mutation (swap) step
whose snapshot is `[1, 3, 2]`, a comparison step for (1,2), a mutation
step whose snapshot is `[1, 2, 3]`, a comparison step for (0,1) with no
following swap, and a terminal step; the final counters are 3 comparisons
and 2 swaps.  The step log equals the explicit six-record list below,
whose classification flags and snapshots are exactly the claimed
sequence. -/
theorem C3_bubble_sort_scenario :
    (bubbleSort [3, 1, 2]).steps =
      [{ array := [3, 1, 2], compareIndex1 := 0, compareIndex2 := 1,
         pivotIndex := -1, swapped := false,
         description := "Comparing elements at positions 0 and 1" },
       { array := [1, 3, 2], compareIndex1 := 0, compareIndex2 := 1,
         pivotIndex := -1, swapped := true,
         description := "Swapping elements at positions 0 and 1" },
       { array := [1, 3, 2], compareIndex1 := 1, compareIndex2 := 2,
         pivotIndex := -1, swapped := false,
         description := "Comparing elements at positions 1 and 2" },
       { array := [1, 2, 3], compareIndex1 := 1, compareIndex2 := 2,
         pivotIndex := -1, swapped := true,
         description := "Swapping elements at positions 1 and 2" },
       { array := [1, 2, 3], compareIndex1 := 0, compareIndex2 := 1,
         pivotIndex := -1, swapped := false,
         description := "Comparing elements at positions 0 and 1" },
       { array := [1, 2, 3], compareIndex1 := -1, compareIndex2 := -1,
         pivotIndex := -1, swapped := false,
         description := "Bubble sort completed!" }] ∧
    (bubbleSort [3, 1, 2]).comparisons = 3 ∧
    (bubbleSort [3, 1, 2]).swaps = 2 := by
  decide

/-- **C4.** The Binary Search executor for target 7 on `[1, 3, 5, 7, 9]`
records (after the opening banner step) a first comparison step at
mid-index 2 (value 5), then the narrow-to-the-right step, then a second
comparison step at mid-index 3 (value 7), then the found message and the
terminal found-at-index-3 step; exactly 2 comparison-classified steps are
recorded, and playing the run to the end leaves the comparison counter at
2 with the target found at index 3. -/
theorem C4_binary_search_scenario :
    binaryRun.steps =
      [{ description := "Starting Binary Search", currentIndex := -1,
         lowIndex := 0, highIndex := 4, foundIndex := -1,
         isComparison := false, isFound := false },
       { description := "Checking middle element at index 2 (value: 5)",
         currentIndex := 2, lowIndex := 0, highIndex := 4, foundIndex := -1,
         isComparison := true, isFound := false },
       { description := "Target is greater than 5, searching right half",
         currentIndex := 2, lowIndex := 0, highIndex := 4, foundIndex := -1,
         isComparison := false, isFound := false },
       { description := "Checking middle element at index 3 (value: 7)",
         currentIndex := 3, lowIndex := 3, highIndex := 4, foundIndex := -1,
         isComparison := true, isFound := false },
       { description := "Found target 7 at index 3!",
         currentIndex := 3, lowIndex := 3, highIndex := 4, foundIndex := -1,
         isComparison := false, isFound := false },
       { description := "Search completed successfully!",
         currentIndex := -1, lowIndex := -1, highIndex := -1, foundIndex := 3,
         isComparison := false, isFound := true }] ∧
    binaryRun.steps.countP (fun st => st.isComparison) = 2 ∧
    binaryPlayed.comparisons = 2 ∧
    binaryPlayed.targetFound = true ∧
    binaryPlayed.foundIndex = 3 ∧
    binaryPlayed.isComplete = true := by
  refine ⟨?_, ?_, ?_, ?_, ?_, ?_⟩ <;>
    simp [binaryRun, binaryPlayed, startSearchButton, startSearch, initSearchVis,
      resetSearch, binarySearch, binaryLoop, recordSearchStep, pushFoundStep,
      completeSearch, searchTick, stepSearch, List.range_succ] <;>
    decide

/-- **C5 counterexample.** The claim says the first `Start()` on the
empty-array Linear Search log leaves the controller immediately
`Completed`, never entering `Running`.  In the code `StartSearch` sets
`m_isRunning = true` because the generated log (the single not-found
step) is non-empty: after the Start Search button the controller is
running and not complete. -/
theorem C5_cex_empty_start_enters_running :
    emptyLinearRun.isRunning = true ∧ emptyLinearRun.isComplete = false := by
  decide

/-- **C5 (amended).** Passing an empty array to the Linear Search
executor produces a step log containing exactly one step — a terminal
"not found" step (no comparison, no found flag) — and `Start()` leaves
the controller `Running` over that single pending step; `Completed` is
reached on the first playback tick, which exhausts the log. -/
theorem C5_empty_linear_search :
    emptyLinearRun.steps =
      [{ description := "Target not found in array", currentIndex := -1,
         lowIndex := -1, highIndex := -1, foundIndex := -1,
         isComparison := false, isFound := false }] ∧
    emptyLinearRun.isRunning = true ∧
    emptyLinearRun.currentStep = 0 ∧
    (searchTick true emptyLinearRun).isComplete = true ∧
    (searchTick true emptyLinearRun).isRunning = false := by
  decide

/-- **C6 counterexample.** At cursor 1 of the Bubble Sort run on
`[3, 1, 2]` the displayed snapshot is `[3, 1, 2]` (the comparison step);
after `StepForward(); StepBackward()` the cursor is restored to 1 but the
displayed snapshot is `[1, 3, 2]` — the snapshot recorded at step 1, not
the one displayed before the pair of calls.  This refutes the claimed
restoration of the displayed snapshot. -/
theorem C6_cex_snapshot_not_restored :
    bubbleAt1.currentStepIndex = 1 ∧ bubbleAt1.array = [3, 1, 2] ∧
    bubblePair.currentStepIndex = 1 ∧ bubblePair.array = [1, 3, 2] ∧
    bubblePair.array ≠ bubbleAt1.array := by
  decide

/-- **C6 (amended).** For every state whose cursor addresses a step
(`cursor < log.length`, so `StepForward` is enabled), `StepForward()`
followed by `StepBackward()` returns the cursor to its prior value, and
the displayed snapshot becomes the snapshot recorded at the step at that
cursor — the snapshot the forward step just applied (`StepBackward`
re-applies the snapshot at the new cursor rather than undoing), which
coincides with the previously displayed snapshot only when the two
adjacent records share a snapshot. -/
theorem C6_forward_backward_cursor (s : SortVis) (t : Nat)
    (h : s.currentStepIndex < s.sortingSteps.length) :
    (sortStepBackward (sortStepForward t s)).currentStepIndex = s.currentStepIndex ∧
    (sortStepBackward (sortStepForward t s)).array =
      (s.sortingSteps.getD s.currentStepIndex default).array := by
  have hne : s.sortingSteps ≠ [] := by
    intro he
    rw [he] at h
    simp at h
  simp only [sortStepForward, executeCurrentStep, sortStepBackward]
  split_ifs <;> simp_all

/-- **C6 witness.** The amended statement applied at the concrete state
`bubbleAt1` (cursor 1 of the Bubble Sort run on `[3, 1, 2]`). -/
theorem C6_forward_backward_cursor_witness :
    bubbleAt1.currentStepIndex < bubbleAt1.sortingSteps.length ∧
    (sortStepBackward (sortStepForward 2 bubbleAt1)).currentStepIndex =
      bubbleAt1.currentStepIndex := by
  refine ⟨by decide, (C6_forward_backward_cursor bubbleAt1 2 (by decide)).1⟩

/-- **C8 counterexample.** A `StartPathfinding` call with the start cell
unset, against an executor that would visibly change the state: the call
returns the state unchanged in every component.  The source function
returns `void`, so the state is everything the host can observe — the
rejection produces no boolean failure signal (the claim's reporting part
is false); the host could only infer it from the state not having become
`Running`. -/
theorem C8_cex_rejection_is_silent :
    startPathfinding markingExec 5 pfNoStart = pfNoStart ∧
    pfNoStart.pfState = AnimState.Stopped := by
  decide

/-- **C8 (amended).** Calling `StartPathfinding` when the start cell or
the end cell is unset is rejected before any algorithm executor is
invoked (the result does not depend on the executor) and leaves the
entire state — playback state and grid included — unchanged; no failure
signal is returned to the host (the function is `void` and the rejected
call is observationally a no-op). -/
theorem C8_missing_cells_rejected (exec : PFVis → PFVis) (now : Nat)
    (s : PFVis) (h : s.startCell = none ∨ s.endCell = none) :
    startPathfinding exec now s = s := by
  unfold startPathfinding
  rw [if_pos h]

/-- **C8 witness.** The amended statement applied at `pfNoStart` with
the marking executor. -/
theorem C8_missing_cells_rejected_witness :
    (pfNoStart.startCell = none ∨ pfNoStart.endCell = none) ∧
    startPathfinding markingExec 5 pfNoStart = pfNoStart :=
  ⟨Or.inl (by decide), C8_missing_cells_rejected markingExec 5 pfNoStart
    (Or.inl (by decide))⟩

/-- **C9.** The host-owned performance history is bounded by the fixed
capacity 50: an insertion into a history within capacity keeps it within
capacity; an insertion into a full history evicts exactly the oldest
record, preserving FIFO order (`hist.tail ++ [r]`); an insertion into a
strictly-under-capacity history is a plain append. -/
theorem C9_history_bounded_fifo (hist : List PerfRec) (r : PerfRec) :
    (hist.length ≤ 50 → (recordAlgorithmPerformance hist r).length ≤ 50) ∧
    (hist.length = 50 → recordAlgorithmPerformance hist r = hist.tail ++ [r]) ∧
    (hist.length < 50 → recordAlgorithmPerformance hist r = hist ++ [r]) := by
  unfold recordAlgorithmPerformance
  refine ⟨?_, ?_, ?_⟩ <;> intro h
  · split_ifs with hl
    · simp only [List.length_tail, List.length_append, List.length_singleton]
      omega
    · simp only [List.length_append, List.length_singleton] at hl ⊢
      omega
  · have hlt : 50 < (hist ++ [r]).length := by
      simp [List.length_append, h]
    rw [if_pos hlt]
    cases hist with
    | nil => simp at h
    | cons a tl => simp
  · have hnlt : ¬50 < (hist ++ [r]).length := by
      simp only [List.length_append, List.length_singleton]
      omega
    rw [if_neg hnlt]

/-- **C9 witness.** The bound and the FIFO eviction applied to a concrete
full history of 50 records. -/
theorem C9_history_bounded_fifo_witness :
    ((List.replicate 50
        ({ name := "Bubble Sort", executionTime := 1, comparisons := 1,
           swaps := 0, timestamp := 1 } : PerfRec)).length = 50) ∧
    recordAlgorithmPerformance
        (List.replicate 50
          ({ name := "Bubble Sort", executionTime := 1, comparisons := 1,
             swaps := 0, timestamp := 1 } : PerfRec))
        ({ name := "Quick Sort", executionTime := 2, comparisons := 9,
           swaps := 3, timestamp := 2 } : PerfRec) =
      (List.replicate 50
        ({ name := "Bubble Sort", executionTime := 1, comparisons := 1,
           swaps := 0, timestamp := 1 } : PerfRec)).tail ++
      [{ name := "Quick Sort", executionTime := 2, comparisons := 9,
         swaps := 3, timestamp := 2 }] :=
  ⟨by simp,
   (C9_history_bounded_fifo _ _).2.1 (by simp)⟩

/-- `RecordStep` leaves the generation counter untouched. -/
theorem recordSearchStep_total (g : SearchGen) (d : String) (ci lo hi : Int) (c : Bool) :
    (recordSearchStep g d ci lo hi c).totalComparisons = g.totalComparisons := rfl

/-- `RecordStep` fires no performance callback. -/
theorem recordSearchStep_emitted (g : SearchGen) (d : String) (ci lo hi : Int) (c : Bool) :
    (recordSearchStep g d ci lo hi c).emitted = g.emitted := rfl

/-- Pushing the hand-built found step leaves the counter untouched. -/
theorem pushFoundStep_total (g : SearchGen) (d : String) (i : Int) :
    (pushFoundStep g d i).totalComparisons = g.totalComparisons := rfl

/-- Pushing the hand-built found step fires no callback. -/
theorem pushFoundStep_emitted (g : SearchGen) (d : String) (i : Int) :
    (pushFoundStep g d i).emitted = g.emitted := rfl

/-- `CompleteSearch` leaves the counter untouched. -/
theorem completeSearch_total (n : String) (g : SearchGen) :
    (completeSearch n g).totalComparisons = g.totalComparisons := rfl

/-- `CompleteSearch` appends exactly one callback record carrying the
current `m_totalComparisons`. -/
theorem completeSearch_emitted (n : String) (g : SearchGen) :
    (completeSearch n g).emitted = g.emitted ++ [(n, g.totalComparisons)] := rfl

/-- The Binary Search loop never touches `m_totalComparisons` and fires
the performance callback exactly once, reporting the counter value it was
entered with (both its found and not-found exits call `CompleteSearch`). -/
theorem binaryLoop_report (arr : List Int) (t low high : Int) (g : SearchGen) :
    (binaryLoop arr t low high g).totalComparisons = g.totalComparisons ∧
    (binaryLoop arr t low high g).emitted =
      g.emitted ++ [("Binary Search", g.totalComparisons)] := by
  induction low, high, g using binaryLoop.induct arr t with
  | case1 low high g hle mid midv heq =>
      rw [binaryLoop, if_pos hle, if_pos heq]
      simp [recordSearchStep, pushFoundStep, completeSearch]
  | case2 low high g hle mid midv g1 hne hlt ih =>
      unfold_let g1 midv mid at ih
      rw [binaryLoop, if_pos hle, if_neg hne, if_pos hlt]
      simpa [recordSearchStep] using ih
  | case3 low high g hle mid midv g1 hne hlt ih =>
      unfold_let g1 midv mid at ih
      rw [binaryLoop, if_pos hle, if_neg hne, if_neg hlt]
      simpa [recordSearchStep] using ih
  | case4 low high g hle =>
      rw [binaryLoop, if_neg hle]
      simp [completeSearch]

/-- The Linear Search loop fires the performance callback exactly once,
on both its found and not-found exits. -/
theorem linearLoop_emitted_report (t : Int) :
    ∀ (l : List (Nat × Int)) (g : SearchGen),
      ∃ c, (linearLoop t l g).emitted = g.emitted ++ [("Linear Search", c)] := by
  intro l
  induction l with
  | nil => intro g; exact ⟨g.totalComparisons, rfl⟩
  | cons p rest ih =>
      intro g
      rw [linearLoop]
      obtain ⟨i, v⟩ := p
      dsimp only
      split_ifs with hv
      · exact ⟨_, rfl⟩
      · exact ih _


/-- The Interpolation Search loop never touches `m_totalComparisons` and
fires the callback at most once with the counter value it was entered
with (the single-element not-found exit returns without calling
`CompleteSearch`). -/
theorem interpLoop_report (ipos : Int → Int → Int) (arr : List Int) (t : Int) :
    ∀ (low high : Int) (g : SearchGen),
      (interpLoop ipos arr t low high g).totalComparisons = g.totalComparisons ∧
      ((interpLoop ipos arr t low high g).emitted = g.emitted ∨
       (interpLoop ipos arr t low high g).emitted =
         g.emitted ++ [("Interpolation Search", g.totalComparisons)]) := by
  intro low high g
  induction low, high, g using interpLoop.induct ipos arr t with
  | case1 high g hcond heq =>
      rw [interpLoop, if_pos hcond, if_pos rfl, if_pos heq]
      exact ⟨rfl, Or.inr rfl⟩
  | case2 high g hcond hne =>
      rw [interpLoop, if_pos hcond, if_pos rfl, if_neg hne]
      exact ⟨rfl, Or.inl rfl⟩
  | case3 low high g hcond hne pos posv heq =>
      rw [interpLoop, if_pos hcond, if_neg hne, if_pos heq]
      exact ⟨rfl, Or.inr rfl⟩
  | case4 low high g hcond hne pos posv g1 hneq hlt ih =>
      rw [interpLoop, if_pos hcond, if_neg hne, if_neg hneq, if_pos hlt]
      exact ih
  | case5 low high g hcond hne pos posv g1 hneq hlt ih =>
      rw [interpLoop, if_pos hcond, if_neg hne, if_neg hneq, if_neg hlt]
      exact ih
  | case6 low high g hcond =>
      rw [interpLoop, if_neg hcond]
      exact ⟨rfl, Or.inr rfl⟩

/-- The bound-doubling loop of Exponential Search records probe steps
only: no counter change, no callback. -/
theorem expBoundLoop_report (arr : List Int) (t : Int) :
    ∀ (fuel bound : Nat) (g : SearchGen),
      (expBoundLoop arr t fuel bound g).2.totalComparisons = g.totalComparisons ∧
      (expBoundLoop arr t fuel bound g).2.emitted = g.emitted := by
  intro fuel
  induction fuel with
  | zero => intro bound g; exact ⟨rfl, rfl⟩
  | succ n ih =>
      intro bound g
      rw [expBoundLoop]
      split_ifs with h1
      · exact ih _ _
      · exact ⟨rfl, rfl⟩

/-- The binary phase of Exponential Search never touches
`m_totalComparisons` and fires the callback exactly once with the counter
value it was entered with. -/
theorem expBinLoop_report (arr : List Int) (t : Int) :
    ∀ (low high : Int) (g : SearchGen),
      (expBinLoop arr t low high g).totalComparisons = g.totalComparisons ∧
      (expBinLoop arr t low high g).emitted =
        g.emitted ++ [("Exponential Search", g.totalComparisons)] := by
  intro low high g
  induction low, high, g using expBinLoop.induct arr t with
  | case1 low high g hle mid midv heq =>
      rw [expBinLoop, if_pos hle, if_pos heq]
      exact ⟨rfl, rfl⟩
  | case2 low high g hle mid midv g1 hne hlt ih =>
      rw [expBinLoop, if_pos hle, if_neg hne, if_pos hlt]
      exact ih
  | case3 low high g hle mid midv g1 hne hlt ih =>
      rw [expBinLoop, if_pos hle, if_neg hne, if_neg hlt]
      exact ih
  | case4 low high g hle =>
      rw [expBinLoop, if_neg hle]
      exact ⟨rfl, rfl⟩

/-- Exponential Search never touches `m_totalComparisons` and fires the
callback exactly once with the counter value it was entered with. -/
theorem exponentialSearch_report (arr : List Int) (t : Int) (g : SearchGen) :
    (exponentialSearch arr t g).totalComparisons = g.totalComparisons ∧
    (exponentialSearch arr t g).emitted =
      g.emitted ++ [("Exponential Search", g.totalComparisons)] := by
  rw [exponentialSearch]
  split_ifs with h0
  · exact ⟨rfl, rfl⟩
  · constructor
    · rw [(expBinLoop_report arr t _ _ _).1]
      simp only [recordSearchStep]
      rw [(expBoundLoop_report arr t _ _ _).1]
    · rw [(expBinLoop_report arr t _ _ _).2]
      simp only [recordSearchStep]
      rw [(expBoundLoop_report arr t _ _ _).1, (expBoundLoop_report arr t _ _ _).2]


/-- The linear phase of Jump Search never touches `m_totalComparisons`
and fires the callback at most once with the entry counter value. -/
theorem jumpLinearLoop_report (arr : List Int) (t : Int) (blockEnd : Nat) :
    ∀ (fuel prev : Nat) (g : SearchGen),
      (jumpLinearLoop arr t blockEnd fuel prev g).totalComparisons = g.totalComparisons ∧
      ((jumpLinearLoop arr t blockEnd fuel prev g).emitted = g.emitted ∨
       (jumpLinearLoop arr t blockEnd fuel prev g).emitted =
         g.emitted ++ [("Jump Search", g.totalComparisons)]) := by
  intro fuel
  induction fuel with
  | zero => intro prev g; exact ⟨rfl, Or.inl rfl⟩
  | succ n ih =>
      intro prev g
      rw [jumpLinearLoop]
      split_ifs with h1 h2 h3
      · exact ⟨rfl, Or.inr rfl⟩
      · exact ih _ _
      · exact ⟨rfl, Or.inr rfl⟩
      · exact ⟨rfl, Or.inr rfl⟩

/-- The block-probing phase of Jump Search never touches
`m_totalComparisons` and fires the callback at most once with the entry
counter value. -/
theorem jumpBlockLoop_report (arr : List Int) (t : Int) (step0 : Nat) :
    ∀ (fuel step prev : Nat) (g : SearchGen),
      (jumpBlockLoop arr t step0 fuel step prev g).totalComparisons = g.totalComparisons ∧
      ((jumpBlockLoop arr t step0 fuel step prev g).emitted = g.emitted ∨
       (jumpBlockLoop arr t step0 fuel step prev g).emitted =
         g.emitted ++ [("Jump Search", g.totalComparisons)]) := by
  intro fuel
  induction fuel with
  | zero => intro step prev g; exact ⟨rfl, Or.inl rfl⟩
  | succ n ih =>
      intro step prev g
      rw [jumpBlockLoop]
      split_ifs with h1 h2
      · exact ⟨rfl, Or.inr rfl⟩
      · exact ih _ _ _
      · exact jumpLinearLoop_report arr t _ _ _ _

/-- Jump Search never touches `m_totalComparisons` and fires the callback
at most once with the entry counter value. -/
theorem jumpSearch_report (arr : List Int) (t : Int) (g : SearchGen) :
    (jumpSearch arr t g).totalComparisons = g.totalComparisons ∧
    ((jumpSearch arr t g).emitted = g.emitted ∨
     (jumpSearch arr t g).emitted =
       g.emitted ++ [("Jump Search", g.totalComparisons)]) := by
  rw [jumpSearch]
  exact jumpBlockLoop_report arr t _ _ _ _ _

/-- Binary Search as dispatched by `StartSearch`: counter untouched,
exactly one callback record reporting the entry counter value. -/
theorem binarySearch_report (arr : List Int) (t : Int) (g : SearchGen) :
    (binarySearch arr t g).totalComparisons = g.totalComparisons ∧
    (binarySearch arr t g).emitted =
      g.emitted ++ [("Binary Search", g.totalComparisons)] := by
  rw [binarySearch]
  exact binaryLoop_report arr t _ _ _

/-- Interpolation Search as dispatched by `StartSearch`: counter
untouched, at most one callback record reporting the entry counter
value. -/
theorem interpolationSearch_report (ipos : Int → Int → Int) (arr : List Int)
    (t : Int) (g : SearchGen) :
    (interpolationSearch ipos arr t g).totalComparisons = g.totalComparisons ∧
    ((interpolationSearch ipos arr t g).emitted = g.emitted ∨
     (interpolationSearch ipos arr t g).emitted =
       g.emitted ++ [("Interpolation Search", g.totalComparisons)]) := by
  rw [interpolationSearch]
  exact interpLoop_report ipos arr t _ _ _


/-- **C10.** For every search algorithm other than Linear Search (Binary,
Interpolation, Exponential, Jump), the comparisons value delivered to the
host through the performance callback is always 0: the Start Search
button (the only call site of `StartSearch`) zeroes `m_totalComparisons`
before the run, and only the Linear Search executor increments that
counter, so every callback record a non-Linear run appends reports 0.
The interpolation position abstracted as `ipos` and the state `s` are
universally quantified, so this covers every input. -/
theorem C10_nonlinear_reports_zero (ipos : Int → Int → Int) (s : SearchVis) :
    (∃ tail, (startSearchButton ipos
        { s with algorithm := SearchAlgo.BinarySearch }).emitted =
          s.emitted ++ tail ∧ tail.all (fun r => r.2 == 0) = true) ∧
    (∃ tail, (startSearchButton ipos
        { s with algorithm := SearchAlgo.InterpolationSearch }).emitted =
          s.emitted ++ tail ∧ tail.all (fun r => r.2 == 0) = true) ∧
    (∃ tail, (startSearchButton ipos
        { s with algorithm := SearchAlgo.ExponentialSearch }).emitted =
          s.emitted ++ tail ∧ tail.all (fun r => r.2 == 0) = true) ∧
    (∃ tail, (startSearchButton ipos
        { s with algorithm := SearchAlgo.JumpSearch }).emitted =
          s.emitted ++ tail ∧ tail.all (fun r => r.2 == 0) = true) := by
  refine ⟨?_, ?_, ?_, ?_⟩ <;>
    rw [startSearchButton] <;>
    split_ifs with ht
  · -- Binary, run path
    have h := binarySearch_report s.array s.targetValue ⟨[], 0, s.emitted⟩
    refine ⟨[("Binary Search", 0)], ?_, by decide⟩
    simp only [startSearch, resetSearch]
    split_ifs <;> simpa using h.2
  · exact ⟨[], by simp, rfl⟩
  · -- Interpolation
    have h := interpolationSearch_report ipos s.array s.targetValue ⟨[], 0, s.emitted⟩
    rcases h.2 with he | he
    · refine ⟨[], ?_, rfl⟩
      simp only [startSearch, resetSearch]
      split_ifs <;> simpa using he
    · refine ⟨[("Interpolation Search", 0)], ?_, by decide⟩
      simp only [startSearch, resetSearch]
      split_ifs <;> simpa using he
  · exact ⟨[], by simp, rfl⟩
  · -- Exponential
    have h := exponentialSearch_report s.array s.targetValue ⟨[], 0, s.emitted⟩
    refine ⟨[("Exponential Search", 0)], ?_, by decide⟩
    simp only [startSearch, resetSearch]
    split_ifs <;> simpa using h.2
  · exact ⟨[], by simp, rfl⟩
  · -- Jump
    have h := jumpSearch_report s.array s.targetValue ⟨[], 0, s.emitted⟩
    rcases h.2 with he | he
    · refine ⟨[], ?_, rfl⟩
      simp only [startSearch, resetSearch]
      split_ifs <;> simpa using he
    · refine ⟨[("Jump Search", 0)], ?_, by decide⟩
      simp only [startSearch, resetSearch]
      split_ifs <;> simpa using he
  · exact ⟨[], by simp, rfl⟩


/-- Every operation of the sorting playback machine preserves the cursor
range invariant `cursor ≤ log.length`. -/
theorem sortOp_cursor_le (gen : List Int → SortGen) (s : SortVis) (op : SortOp)
    (t : Nat) (h : cursorInRange s) : cursorInRange (applySortOp gen s (op, t)) := by
  cases op with
  | start =>
      simp only [applySortOp, startSorting, cursorInRange] at h ⊢
      split_ifs <;> simp_all
  | pause =>
      simp only [applySortOp, pauseSorting, cursorInRange] at h ⊢
      split_ifs <;> simp_all
  | reset =>
      simp [applySortOp, resetArray, cursorInRange]
  | stepFwd =>
      simp only [applySortOp, sortStepForward, executeCurrentStep, cursorInRange] at h ⊢
      split_ifs
      all_goals (try simp_all)
      all_goals omega
  | stepBwd =>
      simp only [applySortOp, sortStepBackward, executeCurrentStep, cursorInRange] at h ⊢
      split_ifs
      all_goals (try simp_all)
      all_goals omega
  | tick =>
      simp only [applySortOp, sortUpdate, sortStepForward, executeCurrentStep,
        cursorInRange] at h ⊢
      split_ifs
      all_goals (try simp_all)
      all_goals omega
  | setDelay d =>
      simp only [applySortOp, setStepDelay, cursorInRange] at h ⊢
      exact h

/-- The cursor range invariant holds along every operation trace. -/
theorem runSortTrace_cursor_le (gen : List Int → SortGen) :
    ∀ (ops : List (SortOp × Nat)) (s : SortVis),
      cursorInRange s → cursorInRange (runSortTrace gen s ops) := by
  intro ops
  induction ops with
  | nil => intro s h; exact h
  | cons p rest ih =>
      intro s h
      obtain ⟨op, t⟩ := p
      exact ih _ (sortOp_cursor_le gen s op t h)

/-- **C7.** Time-driven ticks never decrease the cursor (so along any
sequence of `Running` ticks the cursor is non-decreasing), and after
every operation — tick, manual step, reset, start, pause, speed change —
the cursor stays within `[0, log.length]` (the cursor is a `Nat`
mirroring the source `size_t`, so 0 is a type-level lower bound). -/
theorem C7_cursor_monotone_in_range :
    (∀ (s : SortVis) (t : Nat),
       s.currentStepIndex ≤ (sortUpdate t s).currentStepIndex) ∧
    (∀ (gen : List Int → SortGen) (s : SortVis) (op : SortOp) (t : Nat),
       cursorInRange s → cursorInRange (applySortOp gen s (op, t))) ∧
    (∀ (gen : List Int → SortGen) (s : SortVis) (ops : List (SortOp × Nat)),
       cursorInRange s → cursorInRange (runSortTrace gen s ops)) := by
  refine ⟨?_, ?_, ?_⟩
  · intro s t
    simp only [sortUpdate, sortStepForward, executeCurrentStep]
    split_ifs <;> simp
  · intro gen s op t h
    exact sortOp_cursor_le gen s op t h
  · intro gen s ops h
    exact runSortTrace_cursor_le gen ops s h

/-- **C7 witness.** The invariant applied to the fresh Bubble Sort state
and the concrete two-run trace. -/
theorem C7_cursor_monotone_in_range_witness :
    cursorInRange bubbleVis ∧
    cursorInRange (runSortTrace bubbleSort bubbleVis twoRunTrace) :=
  ⟨by decide,
   C7_cursor_monotone_in_range.2.2 bubbleSort bubbleVis twoRunTrace (by decide)⟩

/-- **C1 counterexample.** In the search family the displayed
comparisons counter (`m_comparisons`) is modified by playback: after
`Start` of a Linear Search for 5 over `[5]` the counter is 0, and a
single playback tick raises it to 1.  Two playback schedules of the same
generated log (no ticks vs. one tick) therefore disagree on the recorded
counter value, refuting the claim for the search family
(`SearchVisualizer::StepSearch` increments `m_comparisons`). -/
theorem C1_cex_search_playback_counter :
    singleLinearRun.comparisons = 0 ∧
    (searchTick true singleLinearRun).comparisons = 1 := by
  decide

/-- **C1 (amended).** In the sorting family the claim holds: `Start`
from `Stopped` installs the generation-time counters produced by the
algorithm run, and no playback operation — tick, manual step forward or
backward, pause, or a speed (step-delay) change — modifies
`m_comparisons`/`m_swaps`.  In the search family it holds only for the
counter the performance callback reports (`m_totalComparisons`), which
ticking and stepping never modify; the displayed `m_comparisons` counter
is playback-driven (see the counterexample). -/
theorem C1_counters_fixed_at_generation :
    (∀ (gen : List Int → SortGen) (s : SortVis) (t : Nat),
       (startSorting gen t { s with state := AnimState.Stopped }).comparisons =
         (gen s.array).comparisons ∧
       (startSorting gen t { s with state := AnimState.Stopped }).swaps =
         (gen s.array).swaps) ∧
    (∀ (gen : List Int → SortGen) (s : SortVis) (t d : Nat),
       ((sortUpdate t s).comparisons = s.comparisons ∧
        (sortUpdate t s).swaps = s.swaps) ∧
       ((sortStepForward t s).comparisons = s.comparisons ∧
        (sortStepForward t s).swaps = s.swaps) ∧
       ((sortStepBackward s).comparisons = s.comparisons ∧
        (sortStepBackward s).swaps = s.swaps) ∧
       ((pauseSorting s).comparisons = s.comparisons ∧
        (pauseSorting s).swaps = s.swaps) ∧
       ((setStepDelay d s).comparisons = s.comparisons ∧
        (setStepDelay d s).swaps = s.swaps)) ∧
    (∀ (sv : SearchVis) (b : Bool),
       (searchTick b sv).totalComparisons = sv.totalComparisons ∧
       (stepSearch sv).totalComparisons = sv.totalComparisons) := by
  refine ⟨?_, ?_, ?_⟩
  · intro gen s t
    simp [startSorting]
  · intro gen s t d
    refine ⟨⟨?_, ?_⟩, ⟨?_, ?_⟩, ⟨?_, ?_⟩, ⟨?_, ?_⟩, ⟨?_, ?_⟩⟩ <;>
      simp only [sortUpdate, sortStepForward, sortStepBackward, pauseSorting,
        setStepDelay, executeCurrentStep] <;>
      split_ifs <;> rfl
  · intro sv b
    constructor <;>
      simp only [searchTick, stepSearch] <;>
      split_ifs <;> rfl


/-- **C2 counterexample.** The claim says the callback fires exactly
once per run, at the transition into `Completed`.  In a single Bubble
Sort run (the trace contains exactly one `Start`) driven to completion,
stepping backward once and forward again re-enters `Completed` and fires
the callback a second time: two records from one run.  Moreover the
search visualizer fires its callback during generation inside `Start`:
after `Start` of a Linear Search over `[5]` one record has already been
emitted while the playback state is not yet complete. -/
theorem C2_cex_double_fire :
    doubleFireTrace.countP (fun p => p.1 == SortOp.start) = 1 ∧
    doubleFireFinal.emitted.length = 2 ∧
    singleLinearRun.emitted.length = 1 ∧
    singleLinearRun.isComplete = false := by
  decide

/-- **C2 (amended).** The performance callback is never invoked on
`Reset`, `Pause`, `Start`, `StepBackward` or a speed change; in the
sorting machine an operation either leaves the callback log unchanged or
— only for a forward step or a tick — appends exactly one record
(carrying the generation-time counters and the wall-clock timestamp) with
the machine entering `Completed`.  Running Bubble Sort on `[3, 1, 2]`
twice to completion appends exactly two records to the host history, in
order, with non-decreasing timestamps (600 and 1400).  In the search
family the callback fires exactly once per `Start`, at generation time,
before playback completes (Linear and Binary shown). -/
theorem C2_callback_at_completion :
    (∀ (gen : List Int → SortGen) (s : SortVis) (t d : Nat),
       (startSorting gen t s).emitted = s.emitted ∧
       (pauseSorting s).emitted = s.emitted ∧
       (resetArray s).emitted = s.emitted ∧
       (sortStepBackward s).emitted = s.emitted ∧
       (setStepDelay d s).emitted = s.emitted) ∧
    (∀ (gen : List Int → SortGen) (s : SortVis) (op : SortOp) (t : Nat),
       (applySortOp gen s (op, t)).emitted = s.emitted ∨
       ((applySortOp gen s (op, t)).emitted = s.emitted ++
          [{ name := s.algName, executionTime := t - s.sortStartTime,
             comparisons := s.comparisons, swaps := s.swaps, timestamp := t }] ∧
        (applySortOp gen s (op, t)).state = AnimState.Completed ∧
        (op = SortOp.stepFwd ∨ op = SortOp.tick))) ∧
    (twoRunHistory =
      [{ name := "Bubble Sort", executionTime := 600, comparisons := 3,
         swaps := 2, timestamp := 600 },
       { name := "Bubble Sort", executionTime := 600, comparisons := 3,
         swaps := 2, timestamp := 1400 }]) ∧
    (∀ (ipos : Int → Int → Int) (sv : SearchVis),
       (startSearch ipos { sv with
          algorithm := SearchAlgo.LinearSearch }).emitted.length =
         sv.emitted.length + 1 ∧
       (startSearch ipos { sv with
          algorithm := SearchAlgo.BinarySearch }).emitted.length =
         sv.emitted.length + 1 ∧
       (startSearch ipos { sv with
          algorithm := SearchAlgo.LinearSearch }).isComplete = false ∧
       (startSearch ipos { sv with
          algorithm := SearchAlgo.BinarySearch }).isComplete = false) := by
  refine ⟨?_, ?_, by decide, ?_⟩
  · intro gen s t d
    refine ⟨?_, ?_, rfl, ?_, rfl⟩ <;>
      simp only [startSorting, pauseSorting, sortStepBackward, executeCurrentStep] <;>
      split_ifs <;> rfl
  · intro gen s op t
    cases op with
    | start =>
        refine Or.inl ?_
        simp only [applySortOp, startSorting]
        split_ifs <;> rfl
    | pause =>
        refine Or.inl ?_
        simp only [applySortOp, pauseSorting]
        split_ifs <;> rfl
    | reset => exact Or.inl rfl
    | stepFwd =>
        simp only [applySortOp, sortStepForward, executeCurrentStep]
        split_ifs <;> simp
    | stepBwd =>
        refine Or.inl ?_
        simp only [applySortOp, sortStepBackward, executeCurrentStep]
        split_ifs <;> rfl
    | tick =>
        simp only [applySortOp, sortUpdate, sortStepForward, executeCurrentStep]
        split_ifs <;> simp
    | setDelay d => exact Or.inl rfl
  · intro ipos sv
    refine ⟨?_, ?_, ?_, ?_⟩
    · obtain ⟨c, hc⟩ := linearLoop_emitted_report sv.targetValue
        (sv.array.enum) ⟨[], sv.totalComparisons, sv.emitted⟩
      simp only [startSearch, resetSearch, linearSearch]
      split_ifs <;> simp [hc]
    · have h := binarySearch_report sv.array sv.targetValue
        ⟨[], sv.totalComparisons, sv.emitted⟩
      simp only [startSearch, resetSearch]
      split_ifs <;> simp [h.2]
    · simp only [startSearch, resetSearch, linearSearch]
      split_ifs <;> rfl
    · simp only [startSearch, resetSearch]
      split_ifs <;> rfl

end AlgoViz
